import Mathlib

/-!
A shallow embedding of the `polymer-analyzer` analysis engine
(`Analyzer` / `AnalyzerCacheContext` and the pieces of the data model the
engine touches), together with theorems settling the specification claims.

The source is asynchronous JavaScript running on a single-threaded event
loop.  The embedding collapses the promise machinery into sequential state
passing: a promise cache map stores the eventual outcome (`Except` value) of
the promise, which is observationally equivalent for a single thread of
control because the source always publishes the in-flight promise before its
first suspension point.  The one claim that is genuinely about microtask
scheduling (the fire-and-forget continuation in `_scanImport`) is settled
against a small explicit FIFO microtask-queue model further down.

Ghost instrumentation: the context state carries append-only logs recording
every invocation of `_scan` (by URL), every call into the `UrlLoader`
(by URL), and every invocation of a parser (by URL and the contents handed
to it).  The logs change no control flow; they only make "function X was
invoked on Y" statements expressible.
-/

namespace PolymerAnalyzer

/-! ## Source positions, ranges, warnings (model/source-range, model/warning) -/

structure SourcePosition where
  line : Nat
  column : Nat
deriving DecidableEq, Repr

structure SourceRange where
  file : String
  startPos : SourcePosition
  endPos : SourcePosition
deriving DecidableEq, Repr

structure LocationOffset where
  line : Nat
  col : Nat
  filename : Option String
deriving DecidableEq, Repr

inductive Severity where
  | ERROR
  | WARNING
  | INFO
deriving DecidableEq, Repr

structure Warning where
  code : String
  message : String
  sourceRange : Option SourceRange
  severity : Severity
deriving DecidableEq, Repr

/-! ## Parsed documents, scanned features, scanned documents, documents -/

/-- The data of a `ParsedDocument` that the analysis engine inspects:
its file-type tag, canonical URL, source text and inline flag.  The
language-specific AST is owned by the external parsers and never examined
by the engine, so it is not part of the model. -/
structure ParsedDocument where
  type : String
  url : String
  contents : String
  isInline : Bool
deriving DecidableEq, Repr

/-- The `ScannedFeature` variants the engine's dependency walk dispatches on:
`ScannedImport` (with its type tag, url and source ranges), a
`ScannedInlineDocument` (type tag, inline contents, location offset and
attached comment), `ScannedElement` (only its attached-comment slot is
touched by `_scanDocument`), and a catch-all for every other feature kind. -/
inductive ScannedFeature where
  | scannedImport (type : String) (url : String)
      (urlSourceRange : Option SourceRange) (sourceRange : Option SourceRange)
  | scannedInlineDocument (type : String) (contents : String)
      (locationOffset : LocationOffset) (attachedComment : Option String)
  | scannedElement (attachedComment : Option String)
  | otherFeature
deriving DecidableEq, Repr

def ScannedFeature.isScannedImport : ScannedFeature → Bool
  | .scannedImport _ _ _ _ => true
  | _ => false

def ScannedFeature.isInlineDocument : ScannedFeature → Bool
  | .scannedInlineDocument _ _ _ _ => true
  | _ => false

structure ScannedDocument where
  document : ParsedDocument
  features : List ScannedFeature
  warnings : List Warning
deriving DecidableEq, Repr

def ScannedDocument.url (sd : ScannedDocument) : String := sd.document.url

def ScannedDocument.isInline (sd : ScannedDocument) : Bool := sd.document.isInline

/-- An analyzed `Document`.  The resolution machinery (feature indexes, the
`resolve()` state machine) lives in `model/document`, outside the embedded
engine; the engine only constructs documents and stores them.  The `id`
field is an allocation counter stamp giving documents object identity, so
that "returns the same `Document` object" is expressible. -/
structure Document where
  id : Nat
  url : String
  scannedDocument : ScannedDocument
deriving DecidableEq, Repr

/-! ## Errors thrown by the engine -/

inductive AnalyzerError where
  | noKnownParser (message : String)
  | cannotLoad (url : String)
  | loadFailed (url : String) (message : String)
  | warningCarrying (w : Warning)
  | parseFailed (message : String)
  | internalError (message : String)
  | cycleOfLengthZero (url : String)
  | unexpectedDependencyType
  | outOfFuel
deriving DecidableEq, Repr

def AnalyzerError.messageOf : AnalyzerError → String
  | .noKnownParser m => m
  | .cannotLoad u => "Can't load URL: " ++ u
  | .loadFailed _ m => m
  | .warningCarrying w => w.message
  | .parseFailed m => m
  | .internalError m => m
  | .cycleOfLengthZero u => "cycle of length zero scanning " ++ u
  | .unexpectedDependencyType => "Unexpected dependency type"
  | .outOfFuel => "out of fuel"

/-! ## String-keyed maps (the cache maps), as association lists -/

def lookupMap {α : Type} : List (String × α) → String → Option α
  | [], _ => none
  | p :: rest, k => if p.1 = k then some p.2 else lookupMap rest k

def setMap {α : Type} (m : List (String × α)) (k : String) (v : α) :
    List (String × α) :=
  (k, v) :: m.filter (fun p => ¬ (p.1 = k))

def removeKeys {α : Type} (m : List (String × α)) (ks : List String) :
    List (String × α) :=
  m.filter (fun p => ¬ (p.1 ∈ ks))

theorem lookupMap_filter {α : Type} (m : List (String × α))
    (q : String × α → Bool) (k : String) (hq : ∀ v, q (k, v) = true) :
    lookupMap (m.filter q) k = lookupMap m k := by
  induction m with
  | nil => simp [lookupMap]
  | cons p rest ih =>
    by_cases hpk : p.1 = k
    · have : q p = true := by
        have := hq p.2
        rwa [show (k, p.2) = p by rw [← hpk]] at this
      rw [List.filter_cons_of_pos this]
      simp [lookupMap, hpk, ih]
    · by_cases hqp : q p = true
      · rw [List.filter_cons_of_pos hqp]
        simp [lookupMap, hpk, ih]
      · rw [List.filter_cons_of_neg (by simp_all)]
        simp [lookupMap, hpk, ih]

theorem lookupMap_setMap_self {α : Type} (m : List (String × α)) (k : String)
    (v : α) : lookupMap (setMap m k v) k = some v := by
  simp [lookupMap, setMap]

theorem lookupMap_setMap_ne {α : Type} (m : List (String × α)) (k k' : String)
    (v : α) (h : k' ≠ k) : lookupMap (setMap m k v) k' = lookupMap m k' := by
  simp only [setMap, lookupMap, if_neg (by simpa using fun e => h e.symm : ¬ ((k, v).1 = k'))]
  exact lookupMap_filter m _ k' (fun w => by simp; intro e; exact h e)

theorem lookupMap_removeKeys {α : Type} (m : List (String × α))
    (ks : List String) (k : String) :
    lookupMap (removeKeys m ks) k = if k ∈ ks then none else lookupMap m k := by
  by_cases hk : k ∈ ks
  · simp only [hk, if_pos]
    induction m with
    | nil => simp [lookupMap, removeKeys]
    | cons p rest ih =>
      by_cases hmem : p.1 ∈ ks
      · rw [removeKeys, List.filter_cons_of_neg (by simp [hmem])]
        exact ih
      · rw [removeKeys, List.filter_cons_of_pos (by simp [hmem])]
        have hpk : ¬ p.1 = k := fun e => hmem (e ▸ hk)
        simp only [lookupMap, hpk, if_neg, not_false_iff]
        exact ih
  · simp only [hk, if_neg, not_false_iff]
    exact lookupMap_filter m _ k (fun v => by simp [hk])

/-! ## External collaborators: loader, resolver, parsers, scanners

Per the source these are interchangeable modules behind small interfaces;
the engine only calls through the contracts below.  Concrete parser and
scanner implementations (HtmlParser, HtmlImportScanner, ...) live outside
the embedded code and appear as parameters. -/

structure UrlResolver where
  canResolve : String → Bool
  resolve : String → String

/-- `canLoad` plus the asynchronous `load`; a `.error` result models the
load promise rejecting with that message. -/
structure UrlLoader where
  canLoad : String → Bool
  load : String → Except String String

inductive ParseFailure where
  | warningCarrying (w : Warning)
  | otherFailure (message : String)

/-- Parser contract: `(contents, url, inlineInfo?) → ParsedDocument` or a
failure (a `WarningCarryingException` or any other exception). -/
structure Parser where
  parse : String → String → Option LocationOffset → Except ParseFailure ParsedDocument

/-- Scanner contract: walk a parsed document and emit scanned features. -/
structure Scanner where
  scan : ParsedDocument → List ScannedFeature

structure Env where
  loader : UrlLoader
  resolver : Option UrlResolver
  parsers : List (String × Parser)
  scanners : List (String × List Scanner)
  lazyEdges : List (String × List String)

/-- `AnalyzerCacheContext._parsers` default value: the four default
parsers, keyed `html`, `js`, `css`, `json`.  The parser implementations are
external, so they are parameters here. -/
def defaultParsers (htmlParser jsParser cssParser jsonParser : Parser) :
    List (String × Parser) :=
  [("html", htmlParser),
   ("js", jsParser),
   ("css", cssParser),
   ("json", jsonParser)]

/-- `AnalyzerCacheContext._getDefaultScanners(lazyEdges)`: the default
scanner table, keyed `html` and `js`.  The nine scanner implementations are
external parameters; the html import scanner receives the lazy-edge map. -/
def getDefaultScanners
    (htmlImportScanner : List (String × List String) → Scanner)
    (htmlScriptScanner htmlStyleScanner domModuleScanner cssImportScanner
      htmlCustomElementReferenceScanner polymerElementScanner behaviorScanner
      vanillaElementScanner : Scanner)
    (lazyEdges : List (String × List String)) : List (String × List Scanner) :=
  [("html",
    [htmlImportScanner lazyEdges,
     htmlScriptScanner,
     htmlStyleScanner,
     domModuleScanner,
     cssImportScanner,
     htmlCustomElementReferenceScanner]),
   ("js",
    [polymerElementScanner,
     behaviorScanner,
     vanillaElementScanner])]

/-- `_resolveUrl`: apply the resolver when present and able, otherwise the
URL passes through unchanged. -/
def resolveUrl (env : Env) (url : String) : String :=
  match env.resolver with
  | some r => if r.canResolve url then r.resolve url else url
  | none => url

/-- The characters after the last occurrence of `sep` (the whole list when
`sep` does not occur). -/
def afterLast (sep : Char) (l : List Char) : List Char :=
  l.foldl (fun acc c => if c = sep then [] else acc ++ [c]) []

/-- The characters after the last `'.'`, or `[]` when there is no dot. -/
def afterLastDot (l : List Char) : List Char :=
  (l.foldl (fun acc c =>
    match acc with
    | none => if c = '.' then some [] else none
    | some e => if c = '.' then some [] else some (e ++ [c])) none).getD []

/-- `path.extname(url).substring(1)`: the file extension of the last path
segment, without its dot (empty when the segment has no dot). -/
def extname (url : String) : String :=
  String.mk (afterLastDot (afterLast '/' url.data))

/-! ## The analysis cache and the context state

The six cache maps of `AnalysisCache`, all keyed by canonical URL.  The
promise-valued maps store the eventual outcome of the stored promise
(`Except` value), since the embedding is sequential; a stored `.error` is a
cached rejected promise, which the source keeps in the map. -/

structure AnalysisCache where
  parsedDocumentPromises : List (String × Except AnalyzerError ParsedDocument)
  scannedDocumentPromises : List (String × Except AnalyzerError ScannedDocument)
  scannedDocuments : List (String × ScannedDocument)
  dependenciesScanned : List (String × Except AnalyzerError Unit)
  analyzedDocumentPromises : List (String × Except AnalyzerError Document)
  analyzedDocuments : List (String × Document)

def AnalysisCache.empty : AnalysisCache :=
  ⟨[], [], [], [], [], []⟩

/-- The mutable state of an `AnalyzerCacheContext`: its cache, generation
counter, an allocation counter for `Document` identities, and the three
ghost logs (see the module comment). -/
structure Ctx where
  cache : AnalysisCache
  generation : Nat
  nextDocumentId : Nat
  scanLog : List String
  loadLog : List String
  parseLog : List (String × String)

def storeParsePromise (ctx : Ctx) (k : String)
    (r : Except AnalyzerError ParsedDocument) : Ctx :=
  { ctx with cache :=
      { ctx.cache with parsedDocumentPromises := setMap ctx.cache.parsedDocumentPromises k r } }

def storeScanPromise (ctx : Ctx) (k : String)
    (r : Except AnalyzerError ScannedDocument) : Ctx :=
  { ctx with cache :=
      { ctx.cache with scannedDocumentPromises := setMap ctx.cache.scannedDocumentPromises k r } }

def storeDependenciesScanned (ctx : Ctx) (k : String)
    (r : Except AnalyzerError Unit) : Ctx :=
  { ctx with cache :=
      { ctx.cache with dependenciesScanned := setMap ctx.cache.dependenciesScanned k r } }

def storeAnalyzedPromise (ctx : Ctx) (k : String)
    (r : Except AnalyzerError Document) : Ctx :=
  { ctx with cache :=
      { ctx.cache with analyzedDocumentPromises := setMap ctx.cache.analyzedDocumentPromises k r } }

/-! ## The engine: straight-line operations -/

/-- `AnalyzerCacheContext.load(resolvedUrl, providedContents?)`: reject if
the loader cannot load the URL; otherwise use the provided contents when
given, else call the loader.  The ghost `loadLog` records actual loader
invocations. -/
def ctxLoad (env : Env) (ctx : Ctx) (resolvedUrl : String)
    (providedContents : Option String) : Except AnalyzerError String × Ctx :=
  if ¬ env.loader.canLoad resolvedUrl then
    (.error (.cannotLoad resolvedUrl), ctx)
  else
    match providedContents with
    | some c => (.ok c, ctx)
    | none =>
      let ctx' := { ctx with loadLog := ctx.loadLog ++ [resolvedUrl] }
      match env.loader.load resolvedUrl with
      | .ok text => (.ok text, ctx')
      | .error msg => (.error (.loadFailed resolvedUrl msg), ctx')

/-- `_parseContents(type, contents, url, inlineInfo?)`: look up the parser
for the file-type tag (raising `NoKnownParserError` if absent), invoke it,
rethrow `WarningCarryingException`s and wrap any other parser exception.
The ghost `parseLog` records `(url, contents)` of every parser invocation. -/
def parseContents (env : Env) (ctx : Ctx) (type : String) (contents : String)
    (url : String) (inlineInfo : Option LocationOffset) :
    Except AnalyzerError ParsedDocument × Ctx :=
  match lookupMap env.parsers type with
  | none => (.error (.noKnownParser ("No parser for for file type " ++ type)), ctx)
  | some p =>
    let ctx' := { ctx with parseLog := ctx.parseLog ++ [(url, contents)] }
    match p.parse contents url inlineInfo with
    | .ok doc => (.ok doc, ctx')
    | .error (.warningCarrying w) => (.error (.warningCarrying w), ctx')
    | .error (.otherFailure _) => (.error (.parseFailed ("Error parsing " ++ url)), ctx')

/-- `_getScannedFeatures(document)`: run the scanners registered for the
document's type (concatenating their outputs in registry order, which is
what `scanning/scan` does), or produce no features when none are
registered. -/
def getScannedFeatures (env : Env) (document : ParsedDocument) :
    List ScannedFeature :=
  match lookupMap env.scanners document.type with
  | some scanners => (scanners.map (fun s => s.scan document)).flatten
  | none => []

/-- The comment-attachment step of `_scanDocument`: if the first scanned
feature is element-like, the attached host comment is attributed to it. -/
def applyCommentToFirst (features : List ScannedFeature)
    (maybeAttachedComment : Option String) : List ScannedFeature :=
  match features with
  | .scannedElement _ :: rest => .scannedElement maybeAttachedComment :: rest
  | fs => fs

/-- `_scanDocument(document, maybeAttachedComment?)`: scan, build the
`ScannedDocument` (with fresh empty warnings), and for a non-inline
document insert it into `scannedDocuments`, throwing if an entry for its
URL already exists. -/
def ctxScanDocument (env : Env) (ctx : Ctx) (document : ParsedDocument)
    (maybeAttachedComment : Option String) :
    Except AnalyzerError ScannedDocument × Ctx :=
  let scannedFeatures :=
    applyCommentToFirst (getScannedFeatures env document) maybeAttachedComment
  let scannedDocument : ScannedDocument := ⟨document, scannedFeatures, []⟩
  if scannedDocument.isInline then
    (.ok scannedDocument, ctx)
  else if (lookupMap ctx.cache.scannedDocuments scannedDocument.url).isSome then
    (.error (.internalError "Scanned document already in cache. This should never happen."), ctx)
  else
    (.ok scannedDocument,
     { ctx with cache :=
         { ctx.cache with scannedDocuments := setMap ctx.cache.scannedDocuments scannedDocument.url scannedDocument } })

/-- `_parse(resolvedUrl, providedContents?)`: return the cached parse
promise when present; otherwise load and parse, caching the outcome (also
when it is a rejection) under the resolved URL. -/
def ctxParse (env : Env) (ctx : Ctx) (resolvedUrl : String)
    (providedContents : Option String) :
    Except AnalyzerError ParsedDocument × Ctx :=
  match lookupMap ctx.cache.parsedDocumentPromises resolvedUrl with
  | some r => (r, ctx)
  | none =>
    match ctxLoad env ctx resolvedUrl providedContents with
    | (.error e, ctx') => (.error e, storeParsePromise ctx' resolvedUrl (.error e))
    | (.ok content, ctx') =>
      let extension := extname resolvedUrl
      match parseContents env ctx' extension content resolvedUrl none with
      | (.error e, ctx'') => (.error e, storeParsePromise ctx'' resolvedUrl (.error e))
      | (.ok parsedDoc, ctx'') =>
        (.ok parsedDoc, storeParsePromise ctx'' resolvedUrl (.ok parsedDoc))

/-- `_makeDocument(scannedDocument)`: throw if a document for the URL was
already analyzed; otherwise construct the `Document` (stamping a fresh
identity), backfill the analyzed-promise slot when absent, and store the
document in `analyzedDocuments`.  (`document.resolve()` belongs to the
external document model and has no effect on the engine state.) -/
def ctxMakeDocument (ctx : Ctx) (scannedDocument : ScannedDocument) :
    Except AnalyzerError Document × Ctx :=
  let resolvedUrl := scannedDocument.url
  if (lookupMap ctx.cache.analyzedDocuments resolvedUrl).isSome then
    (.error (.internalError ("Internal error: document " ++ resolvedUrl ++ " already exists")), ctx)
  else
    let document : Document := ⟨ctx.nextDocumentId, resolvedUrl, scannedDocument⟩
    let ctx1 :=
      if (lookupMap ctx.cache.analyzedDocumentPromises resolvedUrl).isSome then ctx
      else storeAnalyzedPromise ctx resolvedUrl (.ok document)
    let ctx2 :=
      { ctx1 with
        cache := { ctx1.cache with analyzedDocuments := setMap ctx1.cache.analyzedDocuments resolvedUrl document },
        nextDocumentId := ctx1.nextDocumentId + 1 }
    (.ok document, ctx2)

/-! ## The engine: the recursive scan pipeline

The dependency walk of the source is recursive through
`_scan → _scanDependenciesOfToplevelDoc → _scanDependencies →
_scanImport / _scanInlineDocument → _scanInlineSource → _scanDependencies`.
The embedding makes every function total with a fuel parameter; exhausted
fuel surfaces as the artificial `outOfFuel` rejection.  The `visited`
recursion set is a JS `Set` mutated in place and shared by all nested and
sibling calls; the embedding threads it through and returns the grown set.

`_scanDependencies` pushes warnings onto the (mutable) warnings array of
the scanned document it was given; the embedding threads that list
explicitly and returns its final value. -/

/-- Result of `_scan`: either the `'visited'` sentinel (the URL is already
being handled upstack) or the scanned document. -/
inductive ScanOutcome where
  | visitedSentinel
  | doc (scannedDocument : ScannedDocument)
deriving DecidableEq, Repr

/-- The `could-not-load` warning pushed by `_scanImport` for a load/parse
failure `e`: severity ERROR, source range taken from the import's
`urlSourceRange`, falling back to its `sourceRange`. -/
def couldNotLoadWarning (e : AnalyzerError)
    (urlSourceRange sourceRange : Option SourceRange) : Warning :=
  { code := "could-not-load",
    message := "Unable to load import: " ++ e.messageOf,
    sourceRange := urlSourceRange <|> sourceRange,
    severity := .ERROR }

mutual

/-- `_scan(resolvedUrl, contents?, visited?)`.  Returns the scan outcome,
the updated context, and the grown visited set.  The ghost `scanLog`
records the invocation before anything else happens. -/
def ctxScan (env : Env) :
    Nat → Ctx → String → Option String → Option (List String) →
    Except AnalyzerError ScanOutcome × Ctx × List String
  | fuel, ctx0, resolvedUrl, contents, visited =>
    let ctx := { ctx0 with scanLog := ctx0.scanLog ++ [resolvedUrl] }
    match fuel with
    | 0 => (.error .outOfFuel, ctx, visited.getD [])
    | n + 1 =>
      match visited with
      | some v =>
        if resolvedUrl ∈ v then (.ok .visitedSentinel, ctx, v)
        else ctxScanFresh env n ctx resolvedUrl contents (resolvedUrl :: v)
      | none => ctxScanFresh env n ctx resolvedUrl contents [resolvedUrl]

/-- The body of `_scan` after the visited check and the
`actualVisited.add(resolvedUrl)` step: reuse the cached scanned-document
promise when present (still re-walking its dependencies), otherwise parse
and scan, publishing the outcome — also a rejection — in
`scannedDocumentPromises`. -/
def ctxScanFresh (env : Env) :
    Nat → Ctx → String → Option String → List String →
    Except AnalyzerError ScanOutcome × Ctx × List String
  | fuel, ctx, resolvedUrl, contents, actualVisited =>
    match fuel with
    | 0 => (.error .outOfFuel, ctx, actualVisited)
    | n + 1 =>
      match lookupMap ctx.cache.scannedDocumentPromises resolvedUrl with
      | some (.error e) => (.error e, ctx, actualVisited)
      | some (.ok scannedDocument) =>
        match ctxScanDependenciesOfToplevelDoc env n ctx scannedDocument actualVisited with
        | (.error e, ctx', visited') => (.error e, ctx', visited')
        | (.ok _, ctx', visited') => (.ok (.doc scannedDocument), ctx', visited')
      | none =>
        match ctxParse env ctx resolvedUrl contents with
        | (.error e, ctx') => (.error e, storeScanPromise ctx' resolvedUrl (.error e), actualVisited)
        | (.ok document, ctx') =>
          match ctxScanDocument env ctx' document none with
          | (.error e, ctx'') =>
            (.error e, storeScanPromise ctx'' resolvedUrl (.error e), actualVisited)
          | (.ok scannedDocument, ctx'') =>
            let ctx3 := storeScanPromise ctx'' resolvedUrl (.ok scannedDocument)
            match ctxScanDependenciesOfToplevelDoc env n ctx3 scannedDocument actualVisited with
            | (.error e, ctx4, visited') => (.error e, ctx4, visited')
            | (.ok _, ctx4, visited') => (.ok (.doc scannedDocument), ctx4, visited')

/-- `_scanDependenciesOfToplevelDoc(scannedDocument, visited)`: memoize
dependency scanning per URL through `dependenciesScanned` (re-storing the
promise either way), awaiting the stored promise. -/
def ctxScanDependenciesOfToplevelDoc (env : Env) :
    Nat → Ctx → ScannedDocument → List String →
    Except AnalyzerError Unit × Ctx × List String
  | fuel, ctx, scannedDocument, visited =>
    match fuel with
    | 0 => (.error .outOfFuel, ctx, visited)
    | n + 1 =>
      match lookupMap ctx.cache.dependenciesScanned scannedDocument.url with
      | some r => (r, storeDependenciesScanned ctx scannedDocument.url r, visited)
      | none =>
        match ctxScanDependencies env n ctx scannedDocument visited with
        | (r, ctx', _warnings, visited') =>
          (r, storeDependenciesScanned ctx' scannedDocument.url r, visited')

/-- `_scanDependencies(scannedDocument, visited)`: select the features that
are inline documents or imports and walk them (the source maps over them in
parallel and `Promise.all`s; the sequential embedding walks them in order,
which is also the order the parallel version starts them in). -/
def ctxScanDependencies (env : Env) :
    Nat → Ctx → ScannedDocument → List String →
    Except AnalyzerError Unit × Ctx × List Warning × List String
  | fuel, ctx, scannedDocument, visited =>
    match fuel with
    | 0 => (.error .outOfFuel, ctx, scannedDocument.warnings, visited)
    | n + 1 =>
      let scannedDependencies := scannedDocument.features.filter (fun f =>
        f.isInlineDocument || f.isScannedImport)
      scanDependencyList env n ctx scannedDocument.document scannedDependencies
        scannedDocument.warnings visited

/-- The walk over the selected dependency features.  Every feature is
processed (as under `Promise.all`, where all scheduled promises run); the
overall result is the first rejection if any. -/
def scanDependencyList (env : Env) :
    Nat → Ctx → ParsedDocument → List ScannedFeature → List Warning → List String →
    Except AnalyzerError Unit × Ctx × List Warning × List String
  | fuel, ctx, containingDocument, deps, warnings, visited =>
    match fuel with
    | 0 => (.error .outOfFuel, ctx, warnings, visited)
    | n + 1 =>
      match deps with
      | [] => (.ok (), ctx, warnings, visited)
      | f :: rest =>
        match scanDependencyOne env n ctx containingDocument f warnings visited with
        | (r, ctx', warnings', visited') =>
          match scanDependencyList env n ctx' containingDocument rest warnings' visited' with
          | (r2, ctx'', warnings'', visited'') =>
            ((match r with | .error e => .error e | .ok _ => r2), ctx'', warnings'', visited'')

/-- The per-dependency dispatch of `_scanDependencies`: an inline document
is scanned in place; an import is recursed into through `_scanImport`
unless its type is `lazy-html-import`, which is skipped; any other feature
kind is a contract violation (unreachable on the filtered list). -/
def scanDependencyOne (env : Env) :
    Nat → Ctx → ParsedDocument → ScannedFeature → List Warning → List String →
    Except AnalyzerError Unit × Ctx × List Warning × List String
  | fuel, ctx, containingDocument, f, warnings, visited =>
    match fuel with
    | 0 => (.error .outOfFuel, ctx, warnings, visited)
    | n + 1 =>
      match f with
      | .scannedInlineDocument type contents locationOffset attachedComment =>
        ctxScanInlineDocument env n ctx type contents locationOffset attachedComment
          containingDocument warnings visited
      | .scannedImport type url urlSourceRange sourceRange =>
        if type ≠ "lazy-html-import" then
          ctxScanImport env n ctx url urlSourceRange sourceRange warnings visited
        else (.ok (), ctx, warnings, visited)
      | _ => (.error .unexpectedDependencyType, ctx, warnings, visited)

/-- `_scanInlineDocument(inlineDoc, containingDocument, warnings, visited)`:
build the inline location offset (stamping the containing document's URL as
filename), scan the inline source, and catch `WarningCarryingException`s by
pushing their warning onto the containing document's warnings; every other
failure propagates.  (The source also stores the resulting scanned document
in the inline feature's `scannedDocument` slot.) -/
def ctxScanInlineDocument (env : Env) :
    Nat → Ctx → String → String → LocationOffset → Option String →
    ParsedDocument → List Warning → List String →
    Except AnalyzerError Unit × Ctx × List Warning × List String
  | fuel, ctx, type, contents, locationOffset, attachedComment,
      containingDocument, warnings, visited =>
    match fuel with
    | 0 => (.error .outOfFuel, ctx, warnings, visited)
    | n + 1 =>
      let offsetWithFilename : LocationOffset :=
        { line := locationOffset.line, col := locationOffset.col,
          filename := some containingDocument.url }
      match ctxScanInlineSource env n ctx type contents containingDocument.url
          visited (some offsetWithFilename) attachedComment with
      | (.ok _, ctx', visited') => (.ok (), ctx', warnings, visited')
      | (.error (.warningCarrying w), ctx', visited') =>
        (.ok (), ctx', warnings ++ [w], visited')
      | (.error e, ctx', visited') => (.error e, ctx', warnings, visited')

/-- `_scanInlineSource(type, contents, url, visited, inlineInfo?,
attachedComment?)`: parse the inline contents, scan the parsed document,
then scan its dependencies (with the same visited set). -/
def ctxScanInlineSource (env : Env) :
    Nat → Ctx → String → String → String → List String →
    Option LocationOffset → Option String →
    Except AnalyzerError ScannedDocument × Ctx × List String
  | fuel, ctx, type, contents, url, visited, inlineInfo, attachedComment =>
    match fuel with
    | 0 => (.error .outOfFuel, ctx, visited)
    | n + 1 =>
      let resolvedUrl := resolveUrl env url
      match parseContents env ctx type contents resolvedUrl inlineInfo with
      | (.error e, ctx') => (.error e, ctx', visited)
      | (.ok parsedDoc, ctx') =>
        match ctxScanDocument env ctx' parsedDoc attachedComment with
        | (.error e, ctx'') => (.error e, ctx'', visited)
        | (.ok scannedDoc, ctx'') =>
          match ctxScanDependencies env n ctx'' scannedDoc visited with
          | (.error e, ctx3, _w, visited') => (.error e, ctx3, visited')
          | (.ok _, ctx3, _w, visited') => (.ok scannedDoc, ctx3, visited')

/-- `_scanImport(scannedImport, warnings, visited)`: resolve the import's
URL and recurse into `_scan` with the shared visited set.  A
`NoKnownParserError` failure is swallowed silently; any other failure is
recorded as exactly one `could-not-load` ERROR warning on the containing
document; either way `_scanImport` resolves normally (`null`).  On success
the source registers a fire-and-forget continuation assigning the scanned
document into the import feature's `scannedDocument` slot; that microtask
is modeled separately (see the microtask model below). -/
def ctxScanImport (env : Env) :
    Nat → Ctx → String → Option SourceRange → Option SourceRange →
    List Warning → List String →
    Except AnalyzerError Unit × Ctx × List Warning × List String
  | fuel, ctx, importUrl, urlSourceRange, sourceRange, warnings, visited =>
    match fuel with
    | 0 => (.error .outOfFuel, ctx, warnings, visited)
    | n + 1 =>
      let url := resolveUrl env importUrl
      match ctxScan env n ctx url none (some visited) with
      | (.error (.noKnownParser _), ctx', visited') => (.ok (), ctx', warnings, visited')
      | (.error e, ctx', visited') =>
        (.ok (), ctx', warnings ++ [couldNotLoadWarning e urlSourceRange sourceRange], visited')
      | (.ok _, ctx', visited') => (.ok (), ctx', warnings, visited')

end

/-! ## The engine: analyze, fork, fileChanged -/

/-- `AnalyzerCacheContext.analyze(url, contents?)`: resolve the URL, return
the cached analyzed-document promise when present; otherwise scan, reject
on the `'visited'` sentinel (the "cycle of length zero" programmer error),
construct the `Document`, and publish the outcome under the resolved URL.
(The source publishes the in-flight promise synchronously before the body
suspends; sequentially, publishing the outcome at the end leaves the same
observable map.) -/
def ctxAnalyze (env : Env) (fuel : Nat) (ctx : Ctx) (url : String)
    (contents : Option String) : Except AnalyzerError Document × Ctx :=
  let resolvedUrl := resolveUrl env url
  match lookupMap ctx.cache.analyzedDocumentPromises resolvedUrl with
  | some r => (r, ctx)
  | none =>
    match ctxScan env fuel ctx resolvedUrl contents none with
    | (.error e, ctx', _) => (.error e, storeAnalyzedPromise ctx' resolvedUrl (.error e))
    | (.ok .visitedSentinel, ctx', _) =>
      let e : AnalyzerError := .cycleOfLengthZero url
      (.error e, storeAnalyzedPromise ctx' resolvedUrl (.error e))
    | (.ok (.doc scannedDocument), ctx', _) =>
      match ctxMakeDocument ctx' scannedDocument with
      | (.error e, ctx'') => (.error e, storeAnalyzedPromise ctx'' resolvedUrl (.error e))
      | (.ok document, ctx'') =>
        (.ok document, storeAnalyzedPromise ctx'' resolvedUrl (.ok document))

/-- The import URLs of a document, for the importer walk: the resolved URL
of every `ScannedImport` feature, plus the document's lazy edges.
Modelled from the spec: the importer-graph computation of
`analysis-cache`'s `getImportersOf` (its implementation is not among the
sources) walks import edges "dereferencing lazy edges". -/
def documentImports (env : Env) (sd : ScannedDocument) : List String :=
  (sd.features.filterMap (fun f =>
    match f with
    | .scannedImport _ u _ _ => some (resolveUrl env u)
    | _ => none))
  ++ ((lookupMap env.lazyEdges sd.url).getD []).map (resolveUrl env)

/-- Modelled from the spec: `getImportersOf(changedUrl, analyzed, scanned,
resolveFn)` — "the set of URLs whose (analyzed or scanned) document
transitively imports `changedUrl`", computed as a reverse-reachability
fixed point over the import edges of both caches, with visited-set
(monotone-accumulator) termination on cycles. -/
def getImportersOf (env : Env) (target : String)
    (analyzedDocuments : List Document) (scannedDocuments : List ScannedDocument) :
    List String :=
  let docs := analyzedDocuments.map (fun d => d.scannedDocument) ++ scannedDocuments
  let edges := docs.map (fun sd => (sd.url, documentImports env sd))
  let step := fun (acc : List String) =>
    acc ++ (edges.filter (fun p =>
      decide (¬ p.1 ∈ acc) && p.2.any (fun v => v == target || decide (v ∈ acc)))).map Prod.fst
  (List.range (docs.length + 1)).foldl (fun acc _ => step acc) []

/-- Modelled from the spec: `AnalysisCache.onPathChanged(changedUrl,
dependants)` (its implementation is not among the sources) — "produce a new
cache in which the union `{changedUrl} ∪ dependants` has been removed from
all ... maps, and every other entry is carried over by reference". -/
def AnalysisCache.onPathChanged (c : AnalysisCache) (changedUrl : String)
    (dependants : List String) : AnalysisCache :=
  let invalidated := changedUrl :: dependants
  { parsedDocumentPromises := removeKeys c.parsedDocumentPromises invalidated,
    scannedDocumentPromises := removeKeys c.scannedDocumentPromises invalidated,
    scannedDocuments := removeKeys c.scannedDocuments invalidated,
    dependenciesScanned := removeKeys c.dependenciesScanned invalidated,
    analyzedDocumentPromises := removeKeys c.analyzedDocumentPromises invalidated,
    analyzedDocuments := removeKeys c.analyzedDocuments invalidated }

/-- `_fork(cache)`: copy of the context with the given cache and the next
generation number (telemetry, registries and the document-identity counter
carry over). -/
def ctxFork (ctx : Ctx) (cache : AnalysisCache) : Ctx :=
  { ctx with cache := cache, generation := ctx.generation + 1 }

/-- `fileChanged(url)`: compute the dependants of the resolved URL over
both document caches, invalidate `{resolvedUrl} ∪ dependants`, and fork. -/
def ctxFileChanged (env : Env) (ctx : Ctx) (url : String) : Ctx :=
  let resolvedUrl := resolveUrl env url
  let dependants := getImportersOf env resolvedUrl
    (ctx.cache.analyzedDocuments.map Prod.snd)
    (ctx.cache.scannedDocuments.map Prod.snd)
  let newCache := ctx.cache.onPathChanged resolvedUrl dependants
  ctxFork ctx newCache

/-- `clearCaches()` at context level: fork with an empty cache. -/
def ctxClearCaches (ctx : Ctx) : Ctx :=
  ctxFork ctx AnalysisCache.empty

/-- `Analyzer.analyze(url, contents?)`: when explicit contents are given,
swap the context for the `fileChanged` fork first, then delegate. -/
def analyzerAnalyze (env : Env) (fuel : Nat) (ctx : Ctx) (url : String)
    (contents : Option String) : Except AnalyzerError Document × Ctx :=
  let ctx1 := if contents.isSome then ctxFileChanged env ctx url else ctx
  ctxAnalyze env fuel ctx1 url contents

/-! ## Offset ↔ source-position translation of `ParsedDocument`

Modelled from the spec: the implementations of
`ParsedDocument.offsetToSourcePosition` / `sourcePositionToOffset` are not
among the sources (only their declarations are); the spec states that
`newlineIndexes` holds "the 0-based offsets into `contents` of all newline
characters", that it is what offset↔position translation uses, and that the
two translations round-trip exactly on every valid input.  Lines and
columns are 0-based; a newline character is the last character of its line. -/

/-- The 0-based offsets of every newline character in `contents`. -/
def newlineIndexes (contents : List Char) : List Nat :=
  (List.range contents.length).filter
    (fun i => decide (contents.get? i = some '\n'))

/-- The number of newline characters strictly before `offset` — the 0-based
line number of the character at `offset`. -/
def countNewlinesBefore (ni : List Nat) (offset : Nat) : Nat :=
  (ni.filter (fun i => decide (i < offset))).length

/-- The offset at which line `l` starts: 0 for the first line, one past the
`(l-1)`-th newline otherwise. -/
def lineStartOffset : List Nat → Nat → Nat
  | _, 0 => 0
  | [], _ + 1 => 0
  | a :: _, 1 => a + 1
  | _ :: rest, l + 2 => lineStartOffset rest (l + 1)

/-- Modelled from the spec: `ParsedDocument.offsetToSourcePosition`. -/
def offsetToSourcePosition (contents : List Char) (offset : Nat) :
    SourcePosition :=
  let ni := newlineIndexes contents
  let l := countNewlinesBefore ni offset
  ⟨l, offset - lineStartOffset ni l⟩

/-- Modelled from the spec: `ParsedDocument.sourcePositionToOffset`. -/
def sourcePositionToOffset (contents : List Char) (p : SourcePosition) : Nat :=
  lineStartOffset (newlineIndexes contents) p.line + p.column

/-- The offset one past the last column of line `l`: the offset of the
`l`-th newline, or the end of the contents for the last line. -/
def lineEndOffset (contents : List Char) (l : Nat) : Nat :=
  match (newlineIndexes contents).get? l with
  | some x => x
  | none => contents.length

/-- A source position is valid for `contents` when its line exists and its
column does not run past the line's newline (resp. past the end of the
contents on the last line). -/
def ValidPosition (contents : List Char) (p : SourcePosition) : Prop :=
  p.line ≤ (newlineIndexes contents).length ∧
  lineStartOffset (newlineIndexes contents) p.line + p.column ≤
    lineEndOffset contents p.line

instance (contents : List Char) (p : SourcePosition) :
    Decidable (ValidPosition contents p) := by
  unfold ValidPosition; infer_instance

/-! ## Microtask model for the `_scanImport` completion continuation

`_scanImport`, on a successful nested `_scan`, runs synchronously:
`scannedDocumentPromises.get(url)!.then(assign)` — the promise is already
fulfilled at that point, so `then` immediately enqueues the assignment
reaction on the microtask queue — and then `return null`, which resolves
the promise returned by `_scanImport` and thereby enqueues the reactions of
everyone awaiting it.  ECMAScript/HTML microtask queues are FIFO, so the
queue continues `[assign, resume-caller, ...]`. -/

inductive Microtask where
  | assignScannedDocument (scannedDocument : ScannedDocument)
  | resumeImporterCaller
deriving DecidableEq, Repr

/-- The observable state: the import feature's `scannedDocument` slot, and
— ghost — a snapshot of that slot taken at the moment the caller of
`_scanImport` resumes (observes completion). -/
structure ImportSlotState where
  scannedDocumentSlot : Option ScannedDocument
  slotWhenCallerResumed : Option (Option ScannedDocument)
deriving DecidableEq, Repr

def runMicrotask (s : ImportSlotState) : Microtask → ImportSlotState
  | .assignScannedDocument sd => { s with scannedDocumentSlot := some sd }
  | .resumeImporterCaller =>
    { s with slotWhenCallerResumed := some s.scannedDocumentSlot }

def runMicrotasks (q : List Microtask) (s : ImportSlotState) : ImportSlotState :=
  q.foldl runMicrotask s

/-- The microtask-queue suffix produced by the synchronous tail of
`_scanImport` when the nested `_scan` settled with `scannedDocument`:
first the `.then` assignment reaction (enqueued when `.then` is called on
the already-fulfilled scanned-document promise), then the caller's
resumption (enqueued when `return null` resolves `_scanImport`'s own
promise). -/
def scanImportCompletionQueue (scannedDocument : ScannedDocument) :
    List Microtask :=
  [.assignScannedDocument scannedDocument, .resumeImporterCaller]

/-! ## Evolution of the context state through the scan pipeline -/

/-- What every step of the scan pipeline preserves: the scan log only grows
by appends, parser-invocation records are never lost, and the generation
number is untouched (only `_fork` ever changes it). -/
def CtxEvolves (a b : Ctx) : Prop :=
  (∃ t, b.scanLog = a.scanLog ++ t) ∧
  (∀ x, x ∈ a.parseLog → x ∈ b.parseLog) ∧
  b.generation = a.generation

theorem CtxEvolves.rfl (a : Ctx) : CtxEvolves a a :=
  ⟨⟨[], by simp⟩, fun _ h => h, by rfl⟩

theorem CtxEvolves.trans {a b c : Ctx} (h1 : CtxEvolves a b)
    (h2 : CtxEvolves b c) : CtxEvolves a c := by
  obtain ⟨⟨t1, e1⟩, m1, g1⟩ := h1
  obtain ⟨⟨t2, e2⟩, m2, g2⟩ := h2
  exact ⟨⟨t1 ++ t2, by rw [e2, e1, List.append_assoc]⟩,
    fun x hx => m2 x (m1 x hx), g2.trans g1⟩

theorem ctxEvolves_of_logsEq {a b : Ctx} (hs : b.scanLog = a.scanLog)
    (hp : b.parseLog = a.parseLog) (hg : b.generation = a.generation) :
    CtxEvolves a b :=
  ⟨⟨[], by simp [hs]⟩, fun x hx => hp ▸ hx, hg⟩

theorem ctxEvolves_scanLogAppend (a : Ctx) (l : List String) :
    CtxEvolves a { a with scanLog := a.scanLog ++ l } :=
  ⟨⟨l, by rfl⟩, fun _ h => h, by rfl⟩

theorem storeParsePromise_evolves (ctx : Ctx) (k : String) (r) :
    CtxEvolves ctx (storeParsePromise ctx k r) :=
  ctxEvolves_of_logsEq (by rfl) (by rfl) (by rfl)

theorem storeScanPromise_evolves (ctx : Ctx) (k : String) (r) :
    CtxEvolves ctx (storeScanPromise ctx k r) :=
  ctxEvolves_of_logsEq (by rfl) (by rfl) (by rfl)

theorem storeDependenciesScanned_evolves (ctx : Ctx) (k : String) (r) :
    CtxEvolves ctx (storeDependenciesScanned ctx k r) :=
  ctxEvolves_of_logsEq (by rfl) (by rfl) (by rfl)

theorem storeAnalyzedPromise_evolves (ctx : Ctx) (k : String) (r) :
    CtxEvolves ctx (storeAnalyzedPromise ctx k r) :=
  ctxEvolves_of_logsEq (by rfl) (by rfl) (by rfl)

theorem ctxLoad_evolves (env : Env) (ctx : Ctx) (u : String)
    (pc : Option String) : CtxEvolves ctx (ctxLoad env ctx u pc).2 := by
  unfold ctxLoad
  split
  · exact CtxEvolves.rfl ctx
  · match pc with
    | some c => exact CtxEvolves.rfl ctx
    | none =>
      cases h : env.loader.load u with
      | ok text => exact ctxEvolves_of_logsEq (by rfl) (by rfl) (by rfl)
      | error msg => exact ctxEvolves_of_logsEq (by rfl) (by rfl) (by rfl)

theorem parseContents_evolves (env : Env) (ctx : Ctx) (ty cts u : String)
    (ii : Option LocationOffset) :
    CtxEvolves ctx (parseContents env ctx ty cts u ii).2 := by
  unfold parseContents
  cases h : lookupMap env.parsers ty with
  | none => exact CtxEvolves.rfl ctx
  | some p =>
    have base : CtxEvolves ctx { ctx with parseLog := ctx.parseLog ++ [(u, cts)] } :=
      ⟨⟨[], by simp⟩, fun x hx => by simp [hx], by rfl⟩
    cases hp : p.parse cts u ii with
    | ok doc => simpa [hp] using base
    | error e => cases e <;> simpa [hp] using base

theorem ctxScanDocument_evolves (env : Env) (ctx : Ctx) (d : ParsedDocument)
    (mac : Option String) : CtxEvolves ctx (ctxScanDocument env ctx d mac).2 := by
  unfold ctxScanDocument
  dsimp only
  split
  · exact CtxEvolves.rfl ctx
  · split
    · exact CtxEvolves.rfl ctx
    · exact ctxEvolves_of_logsEq (by rfl) (by rfl) (by rfl)

theorem ctxParse_evolves (env : Env) (ctx : Ctx) (u : String)
    (pc : Option String) : CtxEvolves ctx (ctxParse env ctx u pc).2 := by
  unfold ctxParse
  cases h : lookupMap ctx.cache.parsedDocumentPromises u with
  | some r => exact CtxEvolves.rfl ctx
  | none =>
    rcases hl : ctxLoad env ctx u pc with ⟨rl, ctx'⟩
    have el : CtxEvolves ctx ctx' := by
      have := ctxLoad_evolves env ctx u pc
      rwa [hl] at this
    cases rl with
    | error e => simpa [hl] using el.trans (storeParsePromise_evolves ctx' u (.error e))
    | ok content =>
      rcases hp : parseContents env ctx' (extname u) content u none with ⟨rp, ctx''⟩
      have ep : CtxEvolves ctx' ctx'' := by
        have := parseContents_evolves env ctx' (extname u) content u none
        rwa [hp] at this
      cases rp with
      | error e =>
        simpa [hl, hp] using (el.trans ep).trans (storeParsePromise_evolves ctx'' u (.error e))
      | ok doc =>
        simpa [hl, hp] using (el.trans ep).trans (storeParsePromise_evolves ctx'' u (.ok doc))

theorem ctxMakeDocument_evolves (ctx : Ctx) (sd : ScannedDocument) :
    CtxEvolves ctx (ctxMakeDocument ctx sd).2 := by
  unfold ctxMakeDocument
  dsimp only
  split
  · exact CtxEvolves.rfl ctx
  · split
    · exact ctxEvolves_of_logsEq (by rfl) (by rfl) (by rfl)
    · exact ctxEvolves_of_logsEq (by rfl) (by rfl) (by rfl)

/-- Every function of the recursive scan pipeline evolves the context
monotonically (for every fuel value). -/
theorem scanPipeline_evolves (env : Env) : ∀ fuel : Nat,
    (∀ ctx u c vis, CtxEvolves ctx (ctxScan env fuel ctx u c vis).2.1) ∧
    (∀ ctx u c av, CtxEvolves ctx (ctxScanFresh env fuel ctx u c av).2.1) ∧
    (∀ ctx sd vis,
      CtxEvolves ctx (ctxScanDependenciesOfToplevelDoc env fuel ctx sd vis).2.1) ∧
    (∀ ctx sd vis, CtxEvolves ctx (ctxScanDependencies env fuel ctx sd vis).2.1) ∧
    (∀ ctx d deps w vis,
      CtxEvolves ctx (scanDependencyList env fuel ctx d deps w vis).2.1) ∧
    (∀ ctx d f w vis, CtxEvolves ctx (scanDependencyOne env fuel ctx d f w vis).2.1) ∧
    (∀ ctx ty cts lo ac d w vis,
      CtxEvolves ctx (ctxScanInlineDocument env fuel ctx ty cts lo ac d w vis).2.1) ∧
    (∀ ctx ty cts u vis ii ac,
      CtxEvolves ctx (ctxScanInlineSource env fuel ctx ty cts u vis ii ac).2.1) ∧
    (∀ ctx u usr sr w vis,
      CtxEvolves ctx (ctxScanImport env fuel ctx u usr sr w vis).2.1) := by
  intro fuel
  induction fuel with
  | zero =>
    refine ⟨fun ctx u c vis => ctxEvolves_scanLogAppend ctx [u],
      ?_, ?_, ?_, ?_, ?_, ?_, ?_, ?_⟩
    all_goals intros; exact CtxEvolves.rfl _
  | succ n ih =>
    obtain ⟨ihScan, ihFresh, ihTop, ihDeps, ihList, ihOne, ihInline, ihInlineSrc, ihImp⟩ := ih
    refine ⟨?_, ?_, ?_, ?_, ?_, ?_, ?_, ?_, ?_⟩
    · -- ctxScan
      intro ctx u c vis
      show CtxEvolves ctx (ctxScan env (n + 1) ctx u c vis).2.1
      rw [ctxScan.eq_def]
      have base := ctxEvolves_scanLogAppend ctx [u]
      cases vis with
      | some v =>
        by_cases hm : u ∈ v
        · simpa [hm] using base
        · simpa [hm] using base.trans (ihFresh _ u c (u :: v))
      | none => simpa using base.trans (ihFresh _ u c [u])
    · -- ctxScanFresh
      intro ctx u c av
      rw [ctxScanFresh]
      cases hc : lookupMap ctx.cache.scannedDocumentPromises u with
      | some r =>
        cases r with
        | error e => simp [hc]; exact CtxEvolves.rfl ctx
        | ok sd =>
          rcases ht : ctxScanDependenciesOfToplevelDoc env n ctx sd av with ⟨rt, ctx', v'⟩
          have et : CtxEvolves ctx ctx' := by have := ihTop ctx sd av; rwa [ht] at this
          cases rt with
          | error e => simpa [hc, ht] using et
          | ok _ => simpa [hc, ht] using et
      | none =>
        rcases hp : ctxParse env ctx u c with ⟨rp, ctx'⟩
        have ep : CtxEvolves ctx ctx' := by
          have := ctxParse_evolves env ctx u c; rwa [hp] at this
        cases rp with
        | error e =>
          simpa [hc, hp] using ep.trans (storeScanPromise_evolves ctx' u (.error e))
        | ok document =>
          rcases hd : ctxScanDocument env ctx' document none with ⟨rd, ctx''⟩
          have ed : CtxEvolves ctx' ctx'' := by
            have := ctxScanDocument_evolves env ctx' document none; rwa [hd] at this
          cases rd with
          | error e =>
            simpa [hc, hp, hd] using
              (ep.trans ed).trans (storeScanPromise_evolves ctx'' u (.error e))
          | ok sd =>
            rcases ht : ctxScanDependenciesOfToplevelDoc env n
                (storeScanPromise ctx'' u (.ok sd)) sd av with ⟨rt, ctx3, v'⟩
            have et : CtxEvolves (storeScanPromise ctx'' u (.ok sd)) ctx3 := by
              have := ihTop (storeScanPromise ctx'' u (.ok sd)) sd av
              rwa [ht] at this
            have all :=
              ((ep.trans ed).trans (storeScanPromise_evolves ctx'' u (.ok sd))).trans et
            cases rt with
            | error e => simpa [hc, hp, hd, ht] using all
            | ok _ => simpa [hc, hp, hd, ht] using all
    · -- ctxScanDependenciesOfToplevelDoc
      intro ctx sd vis
      rw [ctxScanDependenciesOfToplevelDoc]
      cases hc : lookupMap ctx.cache.dependenciesScanned sd.url with
      | some r =>
        simpa [hc] using storeDependenciesScanned_evolves ctx sd.url r
      | none =>
        rcases hd : ctxScanDependencies env n ctx sd vis with ⟨r, ctx', w', v'⟩
        have ed : CtxEvolves ctx ctx' := by
          have := ihDeps ctx sd vis; rwa [hd] at this
        simpa [hc, hd] using
          ed.trans (storeDependenciesScanned_evolves ctx' sd.url r)
    · -- ctxScanDependencies
      intro ctx sd vis
      rw [ctxScanDependencies]
      exact ihList ctx sd.document _ sd.warnings vis
    · -- scanDependencyList
      intro ctx d deps w vis
      rw [scanDependencyList.eq_def]
      cases deps with
      | nil => exact CtxEvolves.rfl ctx
      | cons f rest =>
        rcases h1 : scanDependencyOne env n ctx d f w vis with ⟨r, ctx', w', v'⟩
        have e1 : CtxEvolves ctx ctx' := by
          have := ihOne ctx d f w vis; rwa [h1] at this
        rcases h2 : scanDependencyList env n ctx' d rest w' v' with ⟨r2, ctx'', w'', v''⟩
        have e2 : CtxEvolves ctx' ctx'' := by
          have := ihList ctx' d rest w' v'; rwa [h2] at this
        simpa [h1, h2] using e1.trans e2
    · -- scanDependencyOne
      intro ctx d f w vis
      rw [scanDependencyOne.eq_def]
      cases f with
      | scannedInlineDocument ty cts lo ac =>
        dsimp only
        exact ihInline ctx ty cts lo ac d w vis
      | scannedImport ty u usr sr =>
        by_cases hty : ty = "lazy-html-import"
        · simpa [hty] using CtxEvolves.rfl ctx
        · simpa [hty] using ihImp ctx u usr sr w vis
      | scannedElement ac => dsimp only; exact CtxEvolves.rfl ctx
      | otherFeature => dsimp only; exact CtxEvolves.rfl ctx
    · -- ctxScanInlineDocument
      intro ctx ty cts lo ac d w vis
      rw [ctxScanInlineDocument]
      rcases hs : ctxScanInlineSource env n ctx ty cts d.url vis
          (some { line := lo.line, col := lo.col, filename := some d.url }) ac
        with ⟨rs, ctx', v'⟩
      have es : CtxEvolves ctx ctx' := by
        have := ihInlineSrc ctx ty cts d.url vis
          (some { line := lo.line, col := lo.col, filename := some d.url }) ac
        rwa [hs] at this
      cases rs with
      | ok sd => simpa [hs] using es
      | error e => cases e <;> simpa [hs] using es
    · -- ctxScanInlineSource
      intro ctx ty cts u vis ii ac
      rw [ctxScanInlineSource]
      rcases hp : parseContents env ctx ty cts (resolveUrl env u) ii with ⟨rp, ctx'⟩
      have ep : CtxEvolves ctx ctx' := by
        have := parseContents_evolves env ctx ty cts (resolveUrl env u) ii
        rwa [hp] at this
      cases rp with
      | error e => simpa [hp] using ep
      | ok parsedDoc =>
        rcases hd : ctxScanDocument env ctx' parsedDoc ac with ⟨rd, ctx''⟩
        have ed : CtxEvolves ctx' ctx'' := by
          have := ctxScanDocument_evolves env ctx' parsedDoc ac; rwa [hd] at this
        cases rd with
        | error e => simpa [hp, hd] using ep.trans ed
        | ok sd =>
          rcases hq : ctxScanDependencies env n ctx'' sd vis with ⟨rq, ctx3, w', v'⟩
          have eq3 : CtxEvolves ctx'' ctx3 := by
            have := ihDeps ctx'' sd vis; rwa [hq] at this
          cases rq with
          | error e => simpa [hp, hd, hq] using (ep.trans ed).trans eq3
          | ok _ => simpa [hp, hd, hq] using (ep.trans ed).trans eq3
    · -- ctxScanImport
      intro ctx u usr sr w vis
      rw [ctxScanImport]
      rcases hs : ctxScan env n ctx (resolveUrl env u) none (some vis) with ⟨rs, ctx', v'⟩
      have es : CtxEvolves ctx ctx' := by
        have := ihScan ctx (resolveUrl env u) none (some vis); rwa [hs] at this
      cases rs with
      | ok o => simpa [hs] using es
      | error e => cases e <;> simpa [hs] using es

/-- `_scan` records its invocation: the scan log after any `_scan` call is
the old log, then the scanned URL, then whatever the nested work logged. -/
theorem ctxScan_scanLog_cons (env : Env) (fuel : Nat) (ctx : Ctx) (u : String)
    (c : Option String) (vis : Option (List String)) :
    ∃ t, (ctxScan env fuel ctx u c vis).2.1.scanLog = ctx.scanLog ++ u :: t := by
  rw [ctxScan.eq_def]
  dsimp only
  cases fuel with
  | zero =>
    cases vis <;> exact ⟨[], by simp⟩
  | succ n =>
    cases vis with
    | some v =>
      by_cases hm : u ∈ v
      · exact ⟨[], by simp [hm]⟩
      · obtain ⟨⟨t, ht⟩, -, -⟩ := (scanPipeline_evolves env n).2.1
          { ctx with scanLog := ctx.scanLog ++ [u] } u c (u :: v)
        exact ⟨t, by simp [hm, ht]⟩
    | none =>
      obtain ⟨⟨t, ht⟩, -, -⟩ := (scanPipeline_evolves env n).2.1
        { ctx with scanLog := ctx.scanLog ++ [u] } u c [u]
      exact ⟨t, by simp [ht]⟩

theorem ctxAnalyze_evolves (env : Env) (fuel : Nat) (ctx : Ctx) (u : String)
    (c : Option String) : CtxEvolves ctx (ctxAnalyze env fuel ctx u c).2 := by
  unfold ctxAnalyze
  cases h : lookupMap ctx.cache.analyzedDocumentPromises (resolveUrl env u) with
  | some r => simpa [h] using CtxEvolves.rfl ctx
  | none =>
    rcases hs : ctxScan env fuel ctx (resolveUrl env u) c none with ⟨rs, ctx', vs⟩
    have es : CtxEvolves ctx ctx' := by
      have := (scanPipeline_evolves env fuel).1 ctx (resolveUrl env u) c none
      rwa [hs] at this
    cases rs with
    | error e =>
      simpa [h, hs] using
        es.trans (storeAnalyzedPromise_evolves ctx' (resolveUrl env u) (.error e))
    | ok o =>
      cases o with
      | visitedSentinel =>
        simpa [h, hs] using es.trans (storeAnalyzedPromise_evolves ctx' (resolveUrl env u) _)
      | doc sd =>
        rcases hm : ctxMakeDocument ctx' sd with ⟨rm, ctx''⟩
        have em : CtxEvolves ctx' ctx'' := by
          have := ctxMakeDocument_evolves ctx' sd; rwa [hm] at this
        cases rm with
        | error e =>
          simpa [h, hs, hm] using
            (es.trans em).trans (storeAnalyzedPromise_evolves ctx'' (resolveUrl env u) (.error e))
        | ok d =>
          simpa [h, hs, hm] using
            (es.trans em).trans (storeAnalyzedPromise_evolves ctx'' (resolveUrl env u) (.ok d))

/-! ## Parser invocation with provided contents (toward claim C2) -/

theorem parseContents_parseLog_mem (env : Env) (ctx : Ctx) (ty cts u : String)
    (ii : Option LocationOffset) (hp : (lookupMap env.parsers ty).isSome) :
    (u, cts) ∈ (parseContents env ctx ty cts u ii).2.parseLog := by
  obtain ⟨p, hp'⟩ := Option.isSome_iff_exists.mp hp
  unfold parseContents
  rw [hp']
  cases hparse : p.parse cts u ii with
  | ok doc => simp [hparse]
  | error e => cases e <;> simp [hparse]

theorem ctxParse_parseLog_mem (env : Env) (ctx : Ctx) (u c : String)
    (h1 : lookupMap ctx.cache.parsedDocumentPromises u = none)
    (h2 : env.loader.canLoad u = true)
    (h3 : (lookupMap env.parsers (extname u)).isSome) :
    (u, c) ∈ (ctxParse env ctx u (some c)).2.parseLog := by
  unfold ctxParse
  rw [h1]
  have hl : ctxLoad env ctx u (some c) = (.ok c, ctx) := by
    unfold ctxLoad
    simp [h2]
  rw [hl]
  rcases hpc : parseContents env ctx (extname u) c u none with ⟨rp, ctx''⟩
  have hmem : (u, c) ∈ ctx''.parseLog := by
    have := parseContents_parseLog_mem env ctx (extname u) c u none h3
    rwa [hpc] at this
  cases rp with
  | error e => simpa [hpc, storeParsePromise] using hmem
  | ok doc => simpa [hpc, storeParsePromise] using hmem

theorem ctxScanFresh_parseLog_mem (env : Env) (n : Nat) (ctx : Ctx)
    (u c : String) (av : List String)
    (h0 : lookupMap ctx.cache.scannedDocumentPromises u = none)
    (h1 : lookupMap ctx.cache.parsedDocumentPromises u = none)
    (h2 : env.loader.canLoad u = true)
    (h3 : (lookupMap env.parsers (extname u)).isSome) :
    (u, c) ∈ (ctxScanFresh env (n + 1) ctx u (some c) av).2.1.parseLog := by
  rw [ctxScanFresh.eq_def]
  dsimp only
  rw [h0]
  rcases hp : ctxParse env ctx u (some c) with ⟨rp, ctx'⟩
  have hmem : (u, c) ∈ ctx'.parseLog := by
    have := ctxParse_parseLog_mem env ctx u c h1 h2 h3
    rwa [hp] at this
  cases rp with
  | error e => simpa [hp, storeScanPromise] using hmem
  | ok document =>
    rcases hd : ctxScanDocument env ctx' document none with ⟨rd, ctx''⟩
    have hmem2 : (u, c) ∈ ctx''.parseLog := by
      have ed := ctxScanDocument_evolves env ctx' document none
      rw [hd] at ed
      exact ed.2.1 _ hmem
    cases rd with
    | error e => simpa [hp, hd, storeScanPromise] using hmem2
    | ok sd =>
      rcases ht : ctxScanDependenciesOfToplevelDoc env n
          (storeScanPromise ctx'' u (.ok sd)) sd av with ⟨rt, ctx3, v'⟩
      have hmem3 : (u, c) ∈ ctx3.parseLog := by
        have et := (scanPipeline_evolves env n).2.2.1
          (storeScanPromise ctx'' u (.ok sd)) sd av
        rw [ht] at et
        exact et.2.1 _ hmem2
      cases rt with
      | error e => simpa [hp, hd, ht] using hmem3
      | ok _ => simpa [hp, hd, ht] using hmem3

theorem ctxScan_parseLog_mem (env : Env) (n : Nat) (ctx : Ctx) (u c : String)
    (h0 : lookupMap ctx.cache.scannedDocumentPromises u = none)
    (h1 : lookupMap ctx.cache.parsedDocumentPromises u = none)
    (h2 : env.loader.canLoad u = true)
    (h3 : (lookupMap env.parsers (extname u)).isSome) :
    (u, c) ∈ (ctxScan env (n + 2) ctx u (some c) none).2.1.parseLog := by
  rw [ctxScan.eq_def]
  dsimp only
  exact ctxScanFresh_parseLog_mem env n { ctx with scanLog := ctx.scanLog ++ [u] }
    u c [u] h0 h1 h2 h3

theorem ctxAnalyze_parseLog_mem (env : Env) (n : Nat) (ctx : Ctx)
    (u : String) (c : String)
    (ha : lookupMap ctx.cache.analyzedDocumentPromises (resolveUrl env u) = none)
    (h0 : lookupMap ctx.cache.scannedDocumentPromises (resolveUrl env u) = none)
    (h1 : lookupMap ctx.cache.parsedDocumentPromises (resolveUrl env u) = none)
    (h2 : env.loader.canLoad (resolveUrl env u) = true)
    (h3 : (lookupMap env.parsers (extname (resolveUrl env u))).isSome) :
    (resolveUrl env u, c) ∈ (ctxAnalyze env (n + 2) ctx u (some c)).2.parseLog := by
  unfold ctxAnalyze
  dsimp only
  rw [ha]
  rcases hs : ctxScan env (n + 2) ctx (resolveUrl env u) (some c) none with ⟨rs, ctx', vs⟩
  have hmem : (resolveUrl env u, c) ∈ ctx'.parseLog := by
    have := ctxScan_parseLog_mem env n ctx (resolveUrl env u) c h0 h1 h2 h3
    rwa [hs] at this
  cases rs with
  | error e => simpa [hs, storeAnalyzedPromise] using hmem
  | ok o =>
    cases o with
    | visitedSentinel => simpa [hs, storeAnalyzedPromise] using hmem
    | doc sd =>
      rcases hm : ctxMakeDocument ctx' sd with ⟨rm, ctx''⟩
      have hmem2 : (resolveUrl env u, c) ∈ ctx''.parseLog := by
        have em := ctxMakeDocument_evolves ctx' sd
        rw [hm] at em
        exact em.2.1 _ hmem
      cases rm with
      | error e => simpa [hs, hm, storeAnalyzedPromise] using hmem2
      | ok d => simpa [hs, hm, storeAnalyzedPromise] using hmem2

/-! ## Claim C1 -/

/-- **C1.**  A `Document` is constructed at most once per (generation, URL):
`analyze` publishes its outcome under the resolved URL (first conjunct),
and a second `analyze` of the same URL on the resulting context — with any
fuel and any contents argument — returns exactly the same outcome (in
particular the same `Document` object, by identity) and leaves the context
untouched (in particular its `nextDocumentId` allocation counter: no new
`Document` is constructed). -/
theorem c1_analyze_memoized (env : Env) (fuel fuel2 : Nat) (ctx : Ctx)
    (u : String) (c c2 : Option String) :
    lookupMap (ctxAnalyze env fuel ctx u c).2.cache.analyzedDocumentPromises
      (resolveUrl env u) = some (ctxAnalyze env fuel ctx u c).1 ∧
    ctxAnalyze env fuel2 (ctxAnalyze env fuel ctx u c).2 u c2 =
      ((ctxAnalyze env fuel ctx u c).1, (ctxAnalyze env fuel ctx u c).2) := by
  have key : lookupMap (ctxAnalyze env fuel ctx u c).2.cache.analyzedDocumentPromises
      (resolveUrl env u) = some (ctxAnalyze env fuel ctx u c).1 := by
    unfold ctxAnalyze
    cases h : lookupMap ctx.cache.analyzedDocumentPromises (resolveUrl env u) with
    | some r => simp [h]
    | none =>
      rcases hs : ctxScan env fuel ctx (resolveUrl env u) c none with ⟨rs, ctx', vs⟩
      cases rs with
      | error e => simp [h, hs, storeAnalyzedPromise, lookupMap_setMap_self]
      | ok o =>
        cases o with
        | visitedSentinel => simp [h, hs, storeAnalyzedPromise, lookupMap_setMap_self]
        | doc sd =>
          rcases hm : ctxMakeDocument ctx' sd with ⟨rm, ctx''⟩
          cases rm <;> simp [h, hs, hm, storeAnalyzedPromise, lookupMap_setMap_self]
  refine ⟨key, ?_⟩
  set p := ctxAnalyze env fuel ctx u c with hp
  rw [ctxAnalyze.eq_def]
  dsimp only
  rw [key]

/-! ## Claim C2 -/

/-- **C2.**  `Analyzer.analyze(url, contents)` with explicit contents:
the context is forked via `fileChanged` before analysis proceeds (first
conjunct), which creates a new cache generation (second and third
conjuncts); `load()` for that URL returns the provided contents without
touching the loader (fourth conjunct), and the parser for the resolved URL
is handed exactly the provided contents in place of the loader's `load()`
result (fifth conjunct). -/
theorem c2_contents_fork_and_bypass (env : Env) (n : Nat) (ctx : Ctx)
    (u : String) (c : String)
    (hLoad : env.loader.canLoad (resolveUrl env u) = true)
    (hParser : (lookupMap env.parsers (extname (resolveUrl env u))).isSome) :
    analyzerAnalyze env (n + 2) ctx u (some c) =
      ctxAnalyze env (n + 2) (ctxFileChanged env ctx u) u (some c) ∧
    (ctxFileChanged env ctx u).generation = ctx.generation + 1 ∧
    (analyzerAnalyze env (n + 2) ctx u (some c)).2.generation = ctx.generation + 1 ∧
    (∀ ctx2 : Ctx, ctxLoad env ctx2 (resolveUrl env u) (some c) = (.ok c, ctx2)) ∧
    (resolveUrl env u, c) ∈ (analyzerAnalyze env (n + 2) ctx u (some c)).2.parseLog := by
  have hdel : analyzerAnalyze env (n + 2) ctx u (some c) =
      ctxAnalyze env (n + 2) (ctxFileChanged env ctx u) u (some c) := by
    unfold analyzerAnalyze
    simp
  have hgen : (ctxFileChanged env ctx u).generation = ctx.generation + 1 := by
    simp [ctxFileChanged, ctxFork]
  have hcaches : ∀ {α : Type} (m : List (String × α)) (deps : List String),
      lookupMap (removeKeys m (resolveUrl env u :: deps)) (resolveUrl env u) = none := by
    intro α m deps
    rw [lookupMap_removeKeys]
    simp
  refine ⟨hdel, hgen, ?_, ?_, ?_⟩
  · rw [hdel]
    have := (ctxAnalyze_evolves env (n + 2) (ctxFileChanged env ctx u) u (some c)).2.2
    rw [this, hgen]
  · intro ctx2
    unfold ctxLoad
    simp [hLoad]
  · rw [hdel]
    exact ctxAnalyze_parseLog_mem env n (ctxFileChanged env ctx u) u c
      (hcaches _ _) (hcaches _ _) (hcaches _ _) hLoad hParser

/-! ## Offset ↔ position round-trip (toward claim C9) -/

theorem newlineIndexes_sorted (contents : List Char) :
    (newlineIndexes contents).Pairwise (· < ·) :=
  (List.pairwise_lt_range contents.length).sublist
    (List.filter_sublist (List.range contents.length))

theorem countNewlinesBefore_nil (o : Nat) : countNewlinesBefore [] o = 0 := rfl

theorem countNewlinesBefore_cons (a : Nat) (rest : List Nat) (o : Nat) :
    countNewlinesBefore (a :: rest) o =
      if a < o then countNewlinesBefore rest o + 1 else countNewlinesBefore rest o := by
  by_cases h : a < o <;> simp [countNewlinesBefore, h]

theorem countNewlinesBefore_eq_zero (l : List Nat) (o : Nat)
    (h : ∀ x ∈ l, ¬ x < o) : countNewlinesBefore l o = 0 := by
  induction l with
  | nil => rfl
  | cons a rest ih =>
    rw [countNewlinesBefore_cons, if_neg (h a (by simp))]
    exact ih (fun x hx => h x (by simp [hx]))

theorem lineStartOffset_succ_eq (rest : List Nat) (k : Nat) (hk : k < rest.length) :
    ∃ x, rest.get? k = some x ∧ lineStartOffset rest (k + 1) = x + 1 := by
  induction rest generalizing k with
  | nil => simp at hk
  | cons b rest' ih =>
    cases k with
    | zero => exact ⟨b, rfl, rfl⟩
    | succ k' =>
      have hk' : k' < rest'.length := by simpa using hk
      obtain ⟨x, h1, h2⟩ := ih k' hk'
      exact ⟨x, by simpa using h1, by simpa [lineStartOffset] using h2⟩

/-- The start of the line found for an offset never lies past the offset. -/
theorem lineStartOffset_countNewlinesBefore_le (ni : List Nat) (o : Nat)
    (hs : ni.Pairwise (· < ·)) :
    lineStartOffset ni (countNewlinesBefore ni o) ≤ o := by
  induction ni generalizing o with
  | nil => simp [countNewlinesBefore_nil, lineStartOffset]
  | cons a rest ih =>
    obtain ⟨ha, hrest⟩ := List.pairwise_cons.mp hs
    by_cases hao : a < o
    · rw [countNewlinesBefore_cons, if_pos hao]
      cases hk : countNewlinesBefore rest o with
      | zero =>
        show lineStartOffset (a :: rest) 1 ≤ o
        show a + 1 ≤ o
        omega
      | succ k' =>
        show lineStartOffset rest (k' + 1) ≤ o
        rw [← hk]
        exact ih o hrest
    · rw [countNewlinesBefore_cons, if_neg hao]
      rw [countNewlinesBefore_eq_zero rest o (fun x hx hlt => hao (Nat.lt_trans (ha x hx) hlt))]
      exact Nat.zero_le o

/-- Counting newlines before `lineStart l + c` recovers `l`, provided the
line exists and the column does not run past the next newline. -/
theorem countNewlinesBefore_lineStartOffset_add (ni : List Nat) (l c : Nat)
    (hs : ni.Pairwise (· < ·)) (hl : l ≤ ni.length)
    (hub : ∀ x, ni.get? l = some x → lineStartOffset ni l + c ≤ x) :
    countNewlinesBefore ni (lineStartOffset ni l + c) = l := by
  induction ni generalizing l with
  | nil =>
    have hl0 : l = 0 := by simpa using hl
    subst hl0
    rfl
  | cons a rest ih =>
    obtain ⟨ha, hrest⟩ := List.pairwise_cons.mp hs
    cases l with
    | zero =>
      have hca : c ≤ a := by have := hub a rfl; simpa [lineStartOffset] using this
      show countNewlinesBefore (a :: rest) (0 + c) = 0
      rw [Nat.zero_add]
      exact countNewlinesBefore_eq_zero _ c (by
        intro x hx
        rcases List.mem_cons.mp hx with h | h
        · omega
        · have := ha x h
          omega)
    | succ l' =>
      cases l' with
      | zero =>
        show countNewlinesBefore (a :: rest) (a + 1 + c) = 1
        rw [countNewlinesBefore_cons, if_pos (by omega)]
        rw [countNewlinesBefore_eq_zero rest (a + 1 + c) ?ub]
        case ub =>
          intro x hx
          cases rest with
          | nil => simp at hx
          | cons b rest' =>
            have hb : a + 1 + c ≤ b := hub b rfl
            rcases List.mem_cons.mp hx with h | h
            · omega
            · have hbx : b < x := (List.pairwise_cons.mp hrest).1 x h
              omega
      | succ l'' =>
        have hl'' : l'' + 1 ≤ rest.length := by simpa using hl
        show countNewlinesBefore (a :: rest) (lineStartOffset rest (l'' + 1) + c) = l'' + 2
        obtain ⟨x, hx, hxeq⟩ := lineStartOffset_succ_eq rest l'' (by omega)
        have hax : a < x := ha x (List.get?_mem hx)
        rw [countNewlinesBefore_cons, if_pos (by omega)]
        have hrec := ih (l'' + 1) hrest (by omega) (fun y hy => hub y (by simpa using hy))
        omega

/-- **C9.**  Offset-to-position and position-to-offset conversion are
mutually inverse on a parsed document's contents: converting a valid
offset to a source position and back yields the offset, and converting a
valid source position to an offset and back yields the position. -/
theorem c9_offset_position_roundtrip (contents : List Char) (offset : Nat)
    (p : SourcePosition) (_hoff : offset ≤ contents.length)
    (hp : ValidPosition contents p) :
    sourcePositionToOffset contents (offsetToSourcePosition contents offset) = offset ∧
    offsetToSourcePosition contents (sourcePositionToOffset contents p) = p := by
  have hs := newlineIndexes_sorted contents
  constructor
  · unfold offsetToSourcePosition sourcePositionToOffset
    dsimp only
    have hle := lineStartOffset_countNewlinesBefore_le (newlineIndexes contents) offset hs
    omega
  · obtain ⟨pline, pcol⟩ := p
    obtain ⟨hl, hub⟩ := hp
    unfold sourcePositionToOffset offsetToSourcePosition
    dsimp only
    have hcount : countNewlinesBefore (newlineIndexes contents)
        (lineStartOffset (newlineIndexes contents) pline + pcol) = pline := by
      refine countNewlinesBefore_lineStartOffset_add _ _ _ hs hl ?_
      intro x hx
      have hle : lineEndOffset contents pline = x := by
        unfold lineEndOffset
        rw [hx]
      rw [hle] at hub
      exact hub
    rw [hcount]
    simp only [SourcePosition.mk.injEq]
    exact ⟨trivial, by omega⟩

/-! ## Claim C3 -/

/-- **C3.**  `_scanImport` error handling: `_scanImport` always resolves
normally (the analysis is never aborted by an import failure); when the
recursive `_scan` fails with `NoKnownParserError` the failure is swallowed
silently (no warning appended); for every other failure exactly one warning
is appended to the containing document's warnings, and that warning has
code `could-not-load`, severity ERROR, and its source range taken from
the import's `urlSourceRange` with fallback to its `sourceRange`. -/
theorem c3_scanImport_error_handling (env : Env) (n : Nat) (ctx : Ctx)
    (importUrl : String) (usr sr : Option SourceRange) (w : List Warning)
    (vis : List String) :
    (ctxScanImport env (n + 1) ctx importUrl usr sr w vis).1 = .ok () ∧
    (ctxScanImport env (n + 1) ctx importUrl usr sr w vis).2.2.1 =
      w ++ (match (ctxScan env n ctx (resolveUrl env importUrl) none (some vis)).1 with
        | .error (.noKnownParser _) => []
        | .error e => [couldNotLoadWarning e usr sr]
        | .ok _ => []) ∧
    (∀ e : AnalyzerError, (couldNotLoadWarning e usr sr).code = "could-not-load" ∧
      (couldNotLoadWarning e usr sr).severity = .ERROR ∧
      (couldNotLoadWarning e usr sr).sourceRange = (usr <|> sr)) := by
  rcases hs : ctxScan env n ctx (resolveUrl env importUrl) none (some vis)
    with ⟨rs, ctx', v'⟩
  refine ⟨?_, ?_, fun e => ⟨rfl, rfl, rfl⟩⟩ <;>
    (rw [ctxScanImport.eq_def]; dsimp only; rw [hs]) <;>
    (cases rs with
     | error e => cases e <;> simp
     | ok o => simp)

/-! ## Claim C4 -/

/-- **C4.**  `fileChanged(u)` forks the context onto a cache from which
every URL in `{resolved u} ∪ dependants(u)` has been removed in all six
cache maps, while the entry of every other URL is carried over from the old
cache (the maps share the surviving entries; in the model this is entry
equality). -/
theorem c4_fileChanged_invalidates_dependants (env : Env) (ctx : Ctx)
    (u v : String) :
    ((v = resolveUrl env u ∨
        v ∈ getImportersOf env (resolveUrl env u)
          (ctx.cache.analyzedDocuments.map Prod.snd)
          (ctx.cache.scannedDocuments.map Prod.snd)) →
      lookupMap (ctxFileChanged env ctx u).cache.parsedDocumentPromises v = none ∧
      lookupMap (ctxFileChanged env ctx u).cache.scannedDocumentPromises v = none ∧
      lookupMap (ctxFileChanged env ctx u).cache.scannedDocuments v = none ∧
      lookupMap (ctxFileChanged env ctx u).cache.dependenciesScanned v = none ∧
      lookupMap (ctxFileChanged env ctx u).cache.analyzedDocumentPromises v = none ∧
      lookupMap (ctxFileChanged env ctx u).cache.analyzedDocuments v = none) ∧
    (¬(v = resolveUrl env u ∨
        v ∈ getImportersOf env (resolveUrl env u)
          (ctx.cache.analyzedDocuments.map Prod.snd)
          (ctx.cache.scannedDocuments.map Prod.snd)) →
      lookupMap (ctxFileChanged env ctx u).cache.parsedDocumentPromises v =
        lookupMap ctx.cache.parsedDocumentPromises v ∧
      lookupMap (ctxFileChanged env ctx u).cache.scannedDocumentPromises v =
        lookupMap ctx.cache.scannedDocumentPromises v ∧
      lookupMap (ctxFileChanged env ctx u).cache.scannedDocuments v =
        lookupMap ctx.cache.scannedDocuments v ∧
      lookupMap (ctxFileChanged env ctx u).cache.dependenciesScanned v =
        lookupMap ctx.cache.dependenciesScanned v ∧
      lookupMap (ctxFileChanged env ctx u).cache.analyzedDocumentPromises v =
        lookupMap ctx.cache.analyzedDocumentPromises v ∧
      lookupMap (ctxFileChanged env ctx u).cache.analyzedDocuments v =
        lookupMap ctx.cache.analyzedDocuments v) := by
  constructor <;> intro h
  · have hv : v ∈ resolveUrl env u ::
        getImportersOf env (resolveUrl env u)
          (ctx.cache.analyzedDocuments.map Prod.snd)
          (ctx.cache.scannedDocuments.map Prod.snd) := List.mem_cons.mpr h
    refine ⟨?_, ?_, ?_, ?_, ?_, ?_⟩ <;>
      (rw [show (ctxFileChanged env ctx u).cache =
          ctx.cache.onPathChanged (resolveUrl env u)
            (getImportersOf env (resolveUrl env u)
              (ctx.cache.analyzedDocuments.map Prod.snd)
              (ctx.cache.scannedDocuments.map Prod.snd)) from rfl,
        AnalysisCache.onPathChanged]) <;>
      (rw [lookupMap_removeKeys, if_pos hv])
  · have hv : ¬ v ∈ resolveUrl env u ::
        getImportersOf env (resolveUrl env u)
          (ctx.cache.analyzedDocuments.map Prod.snd)
          (ctx.cache.scannedDocuments.map Prod.snd) :=
      fun hm => h (List.mem_cons.mp hm)
    refine ⟨?_, ?_, ?_, ?_, ?_, ?_⟩ <;>
      (rw [show (ctxFileChanged env ctx u).cache =
          ctx.cache.onPathChanged (resolveUrl env u)
            (getImportersOf env (resolveUrl env u)
              (ctx.cache.analyzedDocuments.map Prod.snd)
              (ctx.cache.scannedDocuments.map Prod.snd)) from rfl,
        AnalysisCache.onPathChanged]) <;>
      (rw [lookupMap_removeKeys, if_neg hv])

/-! ## Claim C5 -/

/-- **C5.**  During dependency scanning, an import feature of type
`lazy-html-import` is skipped — the dispatch returns with the context (and
so the `_scan` and loader logs), warnings and visited set all unchanged,
and `_scan` is not invoked — while for every import feature of any other
type the dispatch recurses into `_scan` on the import's resolved URL (that
URL is the next entry appended to the scan log). -/
theorem c5_lazy_import_skipped (env : Env) :
    (∀ (n : Nat) (ctx : Ctx) (d : ParsedDocument) (u : String)
        (usr sr : Option SourceRange) (w : List Warning) (vis : List String),
      scanDependencyOne env (n + 1) ctx d
          (.scannedImport "lazy-html-import" u usr sr) w vis =
        (.ok (), ctx, w, vis)) ∧
    (∀ (n : Nat) (ctx : Ctx) (d : ParsedDocument) (ty u : String)
        (usr sr : Option SourceRange) (w : List Warning) (vis : List String),
      ty ≠ "lazy-html-import" →
      ∃ t, (scanDependencyOne env (n + 2) ctx d
          (.scannedImport ty u usr sr) w vis).2.1.scanLog =
        ctx.scanLog ++ resolveUrl env u :: t) := by
  constructor
  · intro n ctx d u usr sr w vis
    rw [scanDependencyOne.eq_def]
    dsimp only
    simp
  · intro n ctx d ty u usr sr w vis hty
    rw [scanDependencyOne.eq_def]
    dsimp only
    rw [if_pos hty]
    rw [ctxScanImport.eq_def]
    dsimp only
    rcases hs : ctxScan env n ctx (resolveUrl env u) none (some vis) with ⟨rs, ctx', v'⟩
    obtain ⟨t, ht⟩ := ctxScan_scanLog_cons env n ctx (resolveUrl env u) none (some vis)
    rw [hs] at ht
    cases rs with
    | error e => cases e <;> exact ⟨t, ht⟩
    | ok o => exact ⟨t, ht⟩

/-! ## Claim C6 -/

/-- **C6.**  At most one `ScannedDocument` and one analyzed `Document` per
(generation, URL): inserting a second non-inline `ScannedDocument` for a
URL already in `scannedDocuments` throws (and leaves the state untouched
rather than overwriting), and `_makeDocument` for a URL already in
`analyzedDocuments` throws (and leaves the state untouched). -/
theorem c6_duplicate_document_throws (env : Env) (ctx : Ctx)
    (d : ParsedDocument) (mac : Option String) (sd : ScannedDocument)
    (hinline : d.isInline = false)
    (hscanned : (lookupMap ctx.cache.scannedDocuments d.url).isSome = true)
    (hanalyzed : (lookupMap ctx.cache.analyzedDocuments sd.url).isSome = true) :
    ctxScanDocument env ctx d mac =
      (.error (.internalError "Scanned document already in cache. This should never happen."), ctx) ∧
    ctxMakeDocument ctx sd =
      (.error (.internalError ("Internal error: document " ++ sd.url ++ " already exists")), ctx) := by
  constructor
  · unfold ctxScanDocument
    dsimp only
    rw [if_neg (by simp [ScannedDocument.isInline, hinline]),
      if_pos (by simpa [ScannedDocument.url] using hscanned)]
  · unfold ctxMakeDocument
    dsimp only
    rw [if_pos hanalyzed]

/-! ## Claim C8 -/

/-- **C8.**  For an import whose nested `_scan` settled with a scanned
document, the fire-and-forget continuation registered by `_scanImport` is
enqueued before the resumption of any caller awaiting `_scanImport`'s
promise; running the FIFO microtask queue therefore assigns the scanned
document into the import feature's `scannedDocument` slot before the caller
observes completion: at the caller's resumption the slot already holds the
scanned document. -/
theorem c8_slot_assigned_before_caller_observes (sd : ScannedDocument)
    (slot0 : Option ScannedDocument) :
    (runMicrotasks (scanImportCompletionQueue sd)
        ⟨slot0, none⟩).slotWhenCallerResumed = some (some sd) ∧
    (runMicrotasks (scanImportCompletionQueue sd)
        ⟨slot0, none⟩).scannedDocumentSlot = some sd := by
  exact ⟨rfl, rfl⟩

/-! ## Claim C10 -/

theorem ctxScanFresh_ne_visitedSentinel (env : Env) (fuel : Nat) (ctx : Ctx)
    (u : String) (c : Option String) (av : List String) :
    (ctxScanFresh env fuel ctx u c av).1 ≠ .ok .visitedSentinel := by
  rw [ctxScanFresh.eq_def]
  dsimp only
  cases fuel with
  | zero => simp
  | succ n =>
    cases hc : lookupMap ctx.cache.scannedDocumentPromises u with
    | some r =>
      cases r with
      | error e => simp [hc]
      | ok sd =>
        rcases ht : ctxScanDependenciesOfToplevelDoc env n ctx sd av with ⟨rt, ctx', v'⟩
        cases rt <;> simp [hc, ht]
    | none =>
      rcases hp : ctxParse env ctx u c with ⟨rp, ctx'⟩
      cases rp with
      | error e => simp [hc, hp]
      | ok document =>
        rcases hd : ctxScanDocument env ctx' document none with ⟨rd, ctx''⟩
        cases rd with
        | error e => simp [hc, hp, hd]
        | ok sd =>
          rcases ht : ctxScanDependenciesOfToplevelDoc env n
              (storeScanPromise ctx'' u (.ok sd)) sd av with ⟨rt, ctx3, v'⟩
          cases rt <;> simp [hc, hp, hd, ht]

/-- **C10.**  The `'visited'` sentinel is returned by `_scan` only when a
visited set was supplied and already contains the resolved URL; a top-level
`_scan` without a visited set — which is how `analyze` always calls it —
never returns the sentinel, so the zero-length-cycle error branch in
`analyze` is unreachable. -/
theorem c10_visited_sentinel_unreachable_from_analyze (env : Env) :
    (∀ (fuel : Nat) (ctx : Ctx) (u : String) (c : Option String)
        (vis : Option (List String)),
      (ctxScan env fuel ctx u c vis).1 = .ok .visitedSentinel →
      ∃ v, vis = some v ∧ u ∈ v) ∧
    (∀ (fuel : Nat) (ctx : Ctx) (u : String) (c : Option String),
      (ctxScan env fuel ctx u c none).1 ≠ .ok .visitedSentinel) := by
  have main : ∀ (fuel : Nat) (ctx : Ctx) (u : String) (c : Option String)
      (vis : Option (List String)),
      (ctxScan env fuel ctx u c vis).1 = .ok .visitedSentinel →
      ∃ v, vis = some v ∧ u ∈ v := by
    intro fuel ctx u c vis h
    rw [ctxScan.eq_def] at h
    dsimp only at h
    cases fuel with
    | zero => simp at h
    | succ n =>
      cases vis with
      | some v =>
        by_cases hm : u ∈ v
        · exact ⟨v, rfl, hm⟩
        · simp [hm] at h
          exact absurd h (ctxScanFresh_ne_visitedSentinel env n _ u c (u :: v))
      | none =>
        simp at h
        exact absurd h (ctxScanFresh_ne_visitedSentinel env n _ u c [u])
  refine ⟨main, fun fuel ctx u c h => ?_⟩
  obtain ⟨v, hv, -⟩ := main fuel ctx u c none h
  simp at hv

/-! ## Claim C7: the default registries

Concrete fixtures used by counterexamples and witnesses. -/

def trivialParser : Parser :=
  ⟨fun contents url _ => .ok ⟨"x", url, contents, false⟩⟩

def htmlFixtureParser : Parser :=
  ⟨fun contents url _ => .ok ⟨"html", url, contents, false⟩⟩

def trivialScanner : Scanner := ⟨fun _ => []⟩

/-- A default-configured environment: the default parser and scanner
registries (with opaque external implementations instantiated trivially), a
loader that can load everything, no resolver, no lazy edges. -/
def defaultEnv : Env :=
  { loader := ⟨fun _ => true, fun _ => .ok "loaded"⟩,
    resolver := none,
    parsers := defaultParsers htmlFixtureParser trivialParser trivialParser trivialParser,
    scanners := getDefaultScanners (fun _ => trivialScanner) trivialScanner
      trivialScanner trivialScanner trivialScanner trivialScanner trivialScanner
      trivialScanner trivialScanner [],
    lazyEdges := [] }

def emptyCtx : Ctx := ⟨AnalysisCache.empty, 0, 0, [], [], []⟩

/-- **C7, counterexample.**  The claim asserts that a document of type
`typescript` can be parsed by the default configuration; in fact the
default parser registry has no `typescript` entry, so `_parseContents`
throws `NoKnownParserError` for it. -/
theorem c7_counterexample_typescript_not_parseable :
    lookupMap defaultEnv.parsers "typescript" = none ∧
    (parseContents defaultEnv emptyCtx "typescript" "let x = 1" "a.ts" none).1 =
      .error (.noKnownParser "No parser for for file type typescript") := by
  constructor <;> rfl

/-- **C7, amended.**  The default registries recognize exactly the
file-type tags `html`, `js`, `css`, `json` for parsers and exactly `html`
and `js` for scanners; `typescript` is *not* accepted as a parser target by
the default configuration — parsing a document of type `typescript` against
the default parser registry fails with `NoKnownParserError` (and no
scanners exist for `typescript` either). -/
theorem c7_default_registries (p1 p2 p3 p4 : Parser)
    (s1 : List (String × List String) → Scanner)
    (s2 s3 s4 s5 s6 s7 s8 s9 : Scanner)
    (lazyEdges : List (String × List String)) (env : Env) (ctx : Ctx)
    (contents url : String) (ii : Option LocationOffset)
    (henv : env.parsers = defaultParsers p1 p2 p3 p4) :
    (defaultParsers p1 p2 p3 p4).map Prod.fst = ["html", "js", "css", "json"] ∧
    (getDefaultScanners s1 s2 s3 s4 s5 s6 s7 s8 s9 lazyEdges).map Prod.fst =
      ["html", "js"] ∧
    lookupMap (defaultParsers p1 p2 p3 p4) "typescript" = none ∧
    lookupMap (getDefaultScanners s1 s2 s3 s4 s5 s6 s7 s8 s9 lazyEdges)
      "typescript" = none ∧
    (parseContents env ctx "typescript" contents url ii).1 =
      .error (.noKnownParser "No parser for for file type typescript") := by
  refine ⟨rfl, rfl, ?_, ?_, ?_⟩
  · simp [defaultParsers, lookupMap]
  · simp [getDefaultScanners, lookupMap]
  · unfold parseContents
    rw [henv]
    have hnone : lookupMap (defaultParsers p1 p2 p3 p4) "typescript" = none := by
      simp [defaultParsers, lookupMap]
    rw [hnone]
    rfl

/-! ## Concrete fixtures for witnesses -/

def c4ScannedImportDoc : ScannedDocument :=
  ⟨⟨"html", "a.html", "", false⟩,
   [.scannedImport "html-import" "b.html" none none], []⟩

def c4Document : Document := ⟨0, "a.html", c4ScannedImportDoc⟩

def c4Ctx : Ctx :=
  { emptyCtx with cache :=
      { AnalysisCache.empty with
          scannedDocuments := [("a.html", c4ScannedImportDoc)],
          analyzedDocumentPromises := [("a.html", .ok c4Document)],
          analyzedDocuments := [("a.html", c4Document)] } }

def c6ScannedDocument : ScannedDocument := ⟨⟨"html", "a.html", "x", false⟩, [], []⟩

def c6Document : Document := ⟨0, "a.html", c6ScannedDocument⟩

def c6Ctx : Ctx :=
  { emptyCtx with cache :=
      { AnalysisCache.empty with
          scannedDocuments := [("a.html", c6ScannedDocument)],
          analyzedDocuments := [("a.html", c6Document)] } }

def c9Contents : List Char := "ab\ncd".toList

/-! ## Witnesses -/

/-- Witness for C2 at a concrete input: analyzing `a.html` with provided
contents hands the parser exactly those contents for that URL. -/
theorem c2_witness :
    (resolveUrl defaultEnv "a.html", "<x>") ∈
      (analyzerAnalyze defaultEnv 2 emptyCtx "a.html" (some "<x>")).2.parseLog :=
  (c2_contents_fork_and_bypass defaultEnv 0 emptyCtx "a.html" "<x>" rfl
    (by decide)).2.2.2.2

/-- Witness for C4 at a concrete input: after `fileChanged("b.html")` the
dependant `a.html` is gone from all six maps, while the unrelated
`c.html` entries are carried over. -/
theorem c4_witness :
    (lookupMap (ctxFileChanged defaultEnv c4Ctx "b.html").cache.parsedDocumentPromises "a.html" = none ∧
     lookupMap (ctxFileChanged defaultEnv c4Ctx "b.html").cache.scannedDocumentPromises "a.html" = none ∧
     lookupMap (ctxFileChanged defaultEnv c4Ctx "b.html").cache.scannedDocuments "a.html" = none ∧
     lookupMap (ctxFileChanged defaultEnv c4Ctx "b.html").cache.dependenciesScanned "a.html" = none ∧
     lookupMap (ctxFileChanged defaultEnv c4Ctx "b.html").cache.analyzedDocumentPromises "a.html" = none ∧
     lookupMap (ctxFileChanged defaultEnv c4Ctx "b.html").cache.analyzedDocuments "a.html" = none) ∧
    (lookupMap (ctxFileChanged defaultEnv c4Ctx "b.html").cache.parsedDocumentPromises "c.html" =
       lookupMap c4Ctx.cache.parsedDocumentPromises "c.html" ∧
     lookupMap (ctxFileChanged defaultEnv c4Ctx "b.html").cache.scannedDocumentPromises "c.html" =
       lookupMap c4Ctx.cache.scannedDocumentPromises "c.html" ∧
     lookupMap (ctxFileChanged defaultEnv c4Ctx "b.html").cache.scannedDocuments "c.html" =
       lookupMap c4Ctx.cache.scannedDocuments "c.html" ∧
     lookupMap (ctxFileChanged defaultEnv c4Ctx "b.html").cache.dependenciesScanned "c.html" =
       lookupMap c4Ctx.cache.dependenciesScanned "c.html" ∧
     lookupMap (ctxFileChanged defaultEnv c4Ctx "b.html").cache.analyzedDocumentPromises "c.html" =
       lookupMap c4Ctx.cache.analyzedDocumentPromises "c.html" ∧
     lookupMap (ctxFileChanged defaultEnv c4Ctx "b.html").cache.analyzedDocuments "c.html" =
       lookupMap c4Ctx.cache.analyzedDocuments "c.html") :=
  ⟨(c4_fileChanged_invalidates_dependants defaultEnv c4Ctx "b.html" "a.html").1
      (Or.inr (by decide)),
   (c4_fileChanged_invalidates_dependants defaultEnv c4Ctx "b.html" "c.html").2
      (by decide)⟩

/-- Witness for C5 at a concrete input: a non-lazy `html-import` is
recursed into — its resolved URL is the next `_scan` invocation logged. -/
theorem c5_witness :
    ∃ t, (scanDependencyOne defaultEnv 2 emptyCtx ⟨"html", "a.html", "", false⟩
        (.scannedImport "html-import" "b.html" none none) [] []).2.1.scanLog =
      emptyCtx.scanLog ++ resolveUrl defaultEnv "b.html" :: t :=
  (c5_lazy_import_skipped defaultEnv).2 0 emptyCtx ⟨"html", "a.html", "", false⟩
    "html-import" "b.html" none none [] [] (by decide)

/-- Witness for C6 at a concrete input: re-inserting the already-cached
`a.html` scanned document throws, as does `_makeDocument` for the
already-analyzed `a.html`. -/
theorem c6_witness :
    ctxScanDocument defaultEnv c6Ctx ⟨"html", "a.html", "x", false⟩ none =
      (.error (.internalError "Scanned document already in cache. This should never happen."), c6Ctx) ∧
    ctxMakeDocument c6Ctx c6ScannedDocument =
      (.error (.internalError ("Internal error: document " ++ c6ScannedDocument.url ++ " already exists")), c6Ctx) :=
  c6_duplicate_document_throws defaultEnv c6Ctx ⟨"html", "a.html", "x", false⟩ none
    c6ScannedDocument rfl (by decide) (by decide)

/-- Witness for the amended C7 at the default-configured environment. -/
theorem c7_witness :
    (parseContents defaultEnv emptyCtx "typescript" "let x = 1" "a.ts" none).1 =
      .error (.noKnownParser "No parser for for file type typescript") :=
  (c7_default_registries htmlFixtureParser trivialParser trivialParser
    trivialParser (fun _ => trivialScanner) trivialScanner trivialScanner
    trivialScanner trivialScanner trivialScanner trivialScanner trivialScanner
    trivialScanner [] defaultEnv emptyCtx "let x = 1" "a.ts" none rfl).2.2.2.2

/-- Witness for C9 at a concrete document (`"ab\ncd"`): offset 4 and
position (line 1, column 1) both round-trip. -/
theorem c9_witness :
    sourcePositionToOffset c9Contents (offsetToSourcePosition c9Contents 4) = 4 ∧
    offsetToSourcePosition c9Contents
      (sourcePositionToOffset c9Contents ⟨1, 1⟩) = ⟨1, 1⟩ :=
  ⟨(c9_offset_position_roundtrip c9Contents 4 ⟨1, 1⟩ (by decide) (by decide)).1,
   (c9_offset_position_roundtrip c9Contents 4 ⟨1, 1⟩ (by decide) (by decide)).2⟩

/-- Witness for C10 at a concrete input: the sentinel does occur when a
visited set containing the URL is supplied, and the theorem recovers that
set. -/
theorem c10_witness :
    ∃ v, (some ["x.html"] : Option (List String)) = some v ∧ "x.html" ∈ v :=
  (c10_visited_sentinel_unreachable_from_analyze defaultEnv).1 1 emptyCtx
    "x.html" none (some ["x.html"]) rfl

end PolymerAnalyzer
